import Mathlib

/-!
Shallow embedding of `src/lib/driverstation.js` (node-driverstation15).

The embedding models:
- the packet codec: the 6-byte control packet build of the constructor and
  `_parseRobotData` (telemetry decode), including Node.js `Buffer` read
  semantics (`readUInt16BE` / `readUInt8` throw a range error past the end
  of the buffer, `toString("hex", start, end)` clamps the range);
- the liveness state machine: `_send`, `_connect`, `_disconnect`,
  `_disconnectCheck`, `_waitForConnection`, `stop`, and the
  `server.on("message", ...)` handler installed by `_listen`, together with
  the two timers (`findTimer`, `sendTimer`) modelled as active/inactive
  flags and the emitted events modelled as the list of event-name strings
  passed to `emit`.

Buffers are lists of byte values (`Nat`); JS numbers that hold byte counts
or the ping counter are `Nat` (the JS `ping` field grows without bound,
exactly as `this.dsData.ping++` does; the 16-bit bound is enforced only
where the Node `writeUInt16BE` enforces it, namely at write time).
-/

namespace DriverStation

/-- A raw byte buffer: Node `Buffer` contents as a list of byte values. -/
abbrev Buf := List Nat

/-- Errors a Node `Buffer` read/write can throw when the checked range or
value is out of bounds (Node throws `RangeError`/`TypeError` from
`checkOffset`/`checkInt`; the engine never catches them). -/
inductive BufError where
  | indexOutOfRange   -- read past the end of the buffer
  | valueOutOfBounds  -- written value does not fit the field width
deriving DecidableEq, Repr

/-- Model of `buffer.readUInt16BE(off)`: big-endian unsigned 16-bit read; throws when
fewer than 2 bytes are available at `off`. -/
def readUInt16BE (b : Buf) (off : Nat) : Except BufError Nat :=
  if off + 2 ≤ b.length then
    .ok (256 * b.getD off 0 + b.getD (off + 1) 0)
  else
    .error .indexOutOfRange

/-- Model of `buffer.readUInt8(off)`: unsigned 8-bit read; throws when `off` is past
the end of the buffer. -/
def readUInt8 (b : Buf) (off : Nat) : Except BufError Nat :=
  if off + 1 ≤ b.length then
    .ok (b.getD off 0)
  else
    .error .indexOutOfRange

/-- One lowercase hex digit for a value in `0..15`. -/
def hexDigit (n : Nat) : Char :=
  if n < 10 then Char.ofNat (48 + n) else Char.ofNat (87 + n)

/-- A byte rendered as exactly two lowercase hex digits, as the Node
`buffer.toString("hex")` renders each byte. -/
def byteToHex (n : Nat) : String :=
  String.mk [hexDigit (n / 16 % 16), hexDigit (n % 16)]

/-- Model of `buffer.toString("hex", start, stop)`: hex rendering of the bytes in
`[start, stop)`, with the range clamped to the buffer (no error on a short
buffer; out-of-range portions simply produce no output). -/
def toStringHex (b : Buf) (start stop : Nat) : String :=
  String.join (((b.drop start).take (stop - start)).map byteToHex)

/-- The decoded telemetry record returned by `_parseRobotData`
(field names as in the source: `pong`, `mode`, `batteryVolts`). -/
structure TelemetryRecord where
  pong : Nat
  mode : Nat
  batteryVolts : String
deriving DecidableEq, Repr

/-- Model of `DriverStation.prototype._parseRobotData(data)`:
`pong = data.readUInt16BE(0)`, `mode = data.readUInt8(3)`,
`batteryVolts = data.toString("hex",5,6) + "." + data.toString("hex",6,7)`.
A buffer read past the end throws (modelled as `.error`), and the source
performs no length validation of its own. -/
def parseRobotData (data : Buf) : Except BufError TelemetryRecord := do
  let pong ← readUInt16BE data 0
  let mode ← readUInt8 data 3
  let batteryVolts := toStringHex data 5 6 ++ "." ++ toStringHex data 6 7
  pure { pong := pong, mode := mode, batteryVolts := batteryVolts }

/-- The `MODES` table of the source: control-mode byte by name. -/
def MODES : List (String × Nat) :=
  [("Disabled", 0x00),
   ("TeleOperated", 0x04),
   ("Autonomous", 0x06),
   ("Test", 0x05),
   ("Emergency Stop", 0x80)]

/-- The `REBOOT_ACTION` table of the source: reboot-directive byte by name. -/
def REBOOT_ACTION : List (String × Nat) :=
  [("Idle", 0x10),
   ("Robot Code", 0x14),
   ("roboRIO", 0x18)]

/-- The `this.dsData` record built by the constructor: the fields of the
outbound control packet. -/
structure DSData where
  ping : Nat
  byte3 : Nat          -- source key "3", value 0x01, unknown reserved byte
  mode : Nat
  reboot_action : Nat
  byte6 : Nat          -- source key "6", value 0x00, unknown reserved byte
deriving DecidableEq, Repr

/-- The initial `dsData` built by the constructor:
`ping = 1`, byte 3 = `0x01`, `mode = MODES["Disabled"]`,
`reboot_action = REBOOT_ACTION["Idle"]`, byte 6 = `0x00`. -/
def initDSData : DSData :=
  { ping := 1
    byte3 := 0x01
    mode := (MODES.lookup "Disabled").getD 0
    reboot_action := (REBOOT_ACTION.lookup "Idle").getD 0
    byte6 := 0x00 }

/-- The unchecked effect of `buffer.writeUInt16BE(v, 0)`: overwrite bytes 0
and 1 with the big-endian encoding of `v`. -/
def writePing (v : Nat) (b : Buf) : Buf :=
  (b.set 0 (v / 256)).set 1 (v % 256)

/-- Model of `buffer.writeUInt16BE(v, 0)` on the 6-byte packet: the Node `checkInt`
throws unless `v ≤ 0xFFFF`; otherwise bytes 0 and 1 are overwritten. -/
def writeUInt16BE0 (v : Nat) (b : Buf) : Except BufError Buf :=
  if v ≤ 0xFFFF then
    .ok (writePing v b)
  else
    .error .valueOutOfBounds

/-- The packet build of the constructor: `new Buffer(6)` followed by
`writeUInt16BE(ping, 0)` and `writeUInt8` of bytes 2..5 (every byte of the
fresh buffer is overwritten). The ping value 1 of the constructor fits 16 bits,
so the checked write cannot throw there; this function is the successful
build for any in-range data. -/
def buildPacket (d : DSData) : Buf :=
  (((((((List.replicate 6 0).set 0 (d.ping / 256)).set 1 (d.ping % 256)).set
      2 d.byte3).set 3 d.mode).set 4 d.reboot_action).set 5 d.byte6)

/-- The mutable engine state: the own fields of the `DriverStation` instance.
Timers are modelled by whether the interval is currently scheduled
(`clearInterval` makes the flag false, `setInterval` true); the receive
socket created by `_listen` is modelled by `serverOpen`. -/
structure DSState where
  connected : Bool
  missedPackets : Nat
  dsData : DSData
  packet : Buf
  findTimer : Bool   -- discovery (slow-rate) interval active
  sendTimer : Bool   -- heartbeat (normal-rate) interval active
  serverOpen : Bool
deriving DecidableEq, Repr

/-- The method names defined on `DriverStation.prototype` in the source
(used to model JS property lookup on `this`: calling a name not in this
table calls `undefined` and throws a `TypeError`). -/
def prototypeMethods : List String :=
  ["start", "stop", "_waitForConnection", "_send", "_connect",
   "_disconnect", "_disconnectCheck", "_read", "_write", "_listen",
   "_parseRobotData"]

/-- A JS runtime error escaping a method of the engine. -/
inductive JSError where
  | typeErrorNotAFunction (name : String)  -- `this.<name>` is undefined
  | bufError (e : BufError)
deriving DecidableEq, Repr

/-- The engine state right after the constructor:
`connected = false`, `missedPackets = 0`, `dsData` at its defaults and
`packet` built from them; no timer is scheduled and no receive socket
exists yet. -/
def constructedState : DSState :=
  { connected := false
    missedPackets := 0
    dsData := initDSData
    packet := buildPacket initDSData
    findTimer := false
    sendTimer := false
    serverOpen := false }

/-- Model of `_waitForConnection()`: schedule the slow-rate discovery interval. -/
def waitForConnection (s : DSState) : DSState :=
  { s with findTimer := true }

/-- The state observed right after a successful `start(opts)`: the
constructor state with the discovery interval scheduled by
`_waitForConnection` and the receive socket bound by `_listen`. -/
def startedState : DSState :=
  { waitForConnection constructedState with serverOpen := true }

/-- Model of `_send()`: `packet.writeUInt16BE(dsData.ping, 0)` (throws when the
unbounded JS counter no longer fits 16 bits), transmit the packet, then
`dsData.ping++`. Returns the transmitted bytes and the new state. -/
def send (s : DSState) : Except BufError (Buf × DSState) := do
  let p ← writeUInt16BE0 s.dsData.ping s.packet
  pure (p, { s with
              packet := p
              dsData := { s.dsData with ping := s.dsData.ping + 1 } })

/-- The events the engine emits, as the strings passed to `this.emit`. -/
abbrev Events := List String

/-- Model of `_connect()`: `clearInterval(findTimer)`, then `setInterval` of the
normal-rate heartbeat, then `connected = true` and `emit("connect")`. -/
def connect (s : DSState) : DSState × Events :=
  ({ s with findTimer := false, sendTimer := true, connected := true },
   ["connect"])

/-- Model of `_disconnect()`: clear both intervals, `connected = false`,
`emit("disconnect")`. -/
def disconnect (s : DSState) : DSState × Events :=
  ({ s with sendTimer := false, findTimer := false, connected := false },
   ["disconnect"])

/-- Model of `_disconnectCheck()`: when `missedPackets > 10`, run `_disconnect()`
then `_waitForConnection()`. -/
def disconnectCheck (s : DSState) : DSState × Events :=
  if s.missedPackets > 10 then
    let (s1, evs) := disconnect s
    (waitForConnection s1, evs)
  else
    (s, [])

/-- One firing of the heartbeat interval scheduled by `_connect`:
`_send(); missedPackets++; _disconnectCheck()`. A throw from `_send`
escapes the callback (modelled as `.error`). -/
def heartbeatTick (s : DSState) : Except BufError (DSState × Events) := do
  let (_, s1) ← send s
  let s2 := { s1 with missedPackets := s1.missedPackets + 1 }
  pure (disconnectCheck s2)

/-- One firing of the discovery interval scheduled by `_waitForConnection`:
`_send()` only. -/
def discoveryTick (s : DSState) : Except BufError (DSState × Events) := do
  let (_, s1) ← send s
  pure (s1, [])

/-- The `server.on("message", ...)` handler installed by `_listen`, for one
inbound datagram `msg`: if not connected run `_connect()`; then
`missedPackets = 0`; then `push(_parseRobotData(msg))`. State mutation
happens before the parse, whose throw (if any) escapes the handler; the
third component is the parse outcome handed to `push`. -/
def onMessage (s : DSState) (msg : Buf) :
    DSState × Events × Except BufError TelemetryRecord :=
  let (s1, evs) := if !s.connected then connect s else (s, [])
  let s2 := { s1 with missedPackets := 0 }
  (s2, evs, parseRobotData msg)

/-- Model of `stop()`: `if (this.connected) this.disconnect(); this.server.close()`.
The prototype defines `_disconnect` but no method named `disconnect`, so
the lookup of `this.disconnect` yields `undefined` and the call throws a
`TypeError` before `server.close()` runs. -/
def stop (s : DSState) : Except JSError DSState :=
  if s.connected then
    if "disconnect" ∈ prototypeMethods then
      let (s1, _) := disconnect s
      .ok { s1 with serverOpen := false }
    else
      .error (.typeErrorNotAFunction "disconnect")
  else
    .ok { s with serverOpen := false }

/-- Iterated sends: `n` consecutive `_send()` calls (timer firings of either timer reach
`_send` the same way): the list of transmitted packets and the final state;
a throw from any send aborts the run. -/
def sendN (s : DSState) : Nat → Except BufError (List Buf × DSState)
  | 0 => .ok ([], s)
  | n + 1 =>
    match sendN s n with
    | .error e => .error e
    | .ok (pkts, s1) =>
      match send s1 with
      | .error e => .error e
      | .ok (p, s2) => .ok (pkts ++ [p], s2)

/-- Iterated ticks: `n` consecutive firings of the heartbeat interval with no datagram
arrival in between: final state and the concatenation of all emitted
events, in order. -/
def runTicks (s : DSState) : Nat → Except BufError (DSState × Events)
  | 0 => .ok (s, [])
  | n + 1 =>
    match runTicks s n with
    | .error e => .error e
    | .ok (s1, evs1) =>
      match heartbeatTick s1 with
      | .error e => .error e
      | .ok (s2, evs2) => .ok (s2, evs1 ++ evs2)

/-- Consecutive datagram arrivals: the `message` handler runs once per
datagram; a parse throw escapes the handler and aborts the run (the state
mutations of the failing handler run had already happened, but no further
arrivals are processed). -/
def runArrivals (s : DSState) : List Buf → Except BufError (DSState × Events)
  | [] => .ok (s, [])
  | m :: ms =>
    match onMessage s m with
    | (_, _, .error e) => .error e
    | (s1, evs, .ok _) =>
      match runArrivals s1 ms with
      | .error e => .error e
      | .ok (s2, evs2) => .ok (s2, evs ++ evs2)

/-- The primitive statements of the body of `_connect()`, in source
order: `clearInterval(this.findTimer)` (with the `findTimer = null`
assignment), `this.sendTimer = setInterval(...)`, `this.connected = true`,
`this.emit("connect")`. -/
inductive ConnectStep where
  | clearFindInterval
  | startSendInterval
  | setConnectedTrue
  | emitConnect
deriving DecidableEq, Repr

/-- The body of `_connect()` as its ordered list of primitive steps. -/
def connectBody : List ConnectStep :=
  [.clearFindInterval, .startSendInterval, .setConnectedTrue, .emitConnect]

/-- The state/event effect of one primitive step of `_connect()`. -/
def applyConnectStep (se : DSState × Events) : ConnectStep → DSState × Events
  | .clearFindInterval => ({ se.1 with findTimer := false }, se.2)
  | .startSendInterval => ({ se.1 with sendTimer := true }, se.2)
  | .setConnectedTrue => ({ se.1 with connected := true }, se.2)
  | .emitConnect => (se.1, se.2 ++ ["connect"])

/-- The states of the running engine reachable from `start()` by its three
kinds of callback: datagram arrival on the bound receive socket, a firing
of the discovery interval, and a firing of the heartbeat interval (an
interval can fire only while it is scheduled). -/
inductive Reachable : DSState → Prop where
  | start : Reachable startedState
  | message (s s' : DSState) (msg : Buf) (evs : Events)
      (r : Except BufError TelemetryRecord) :
      Reachable s → onMessage s msg = (s', evs, r) → Reachable s'
  | discovery (s s' : DSState) (evs : Events) :
      Reachable s → s.findTimer = true →
      discoveryTick s = .ok (s', evs) → Reachable s'
  | heartbeat (s s' : DSState) (evs : Events) :
      Reachable s → s.sendTimer = true →
      heartbeatTick s = .ok (s', evs) → Reachable s'

/-- The timer/state correspondence of the spec: exactly one interval is
scheduled, and it is the one matching the connection state. -/
def timerInv (s : DSState) : Prop :=
  (s.connected = true ∧ s.sendTimer = true ∧ s.findTimer = false) ∨
  (s.connected = false ∧ s.findTimer = true ∧ s.sendTimer = false)

instance (s : DSState) : Decidable (timerInv s) := by
  unfold timerInv; infer_instance

deriving instance DecidableEq for Except

/-- The started engine after the first datagram arrival made it
`Connected` (heartbeat interval scheduled, discovery interval cleared),
with `missedPackets` at `mp`. -/
def connectedState (mp : Nat) : DSState :=
  { startedState with
      connected := true
      sendTimer := true
      findTimer := false
      missedPackets := mp }

/-- The started engine after the unbounded JS ping counter has reached
65536 (as it does after 65535 sends). -/
def overflowState : DSState :=
  { startedState with dsData := { initDSData with ping := 65536 } }

theorem writePing_writePing (a b : Nat) (p : Buf) :
    writePing a (writePing b p) = writePing a p := by
  rcases p with _ | ⟨x, _ | ⟨y, t⟩⟩ <;> rfl

theorem drop_two_writePing (v : Nat) (p : Buf) :
    (writePing v p).drop 2 = p.drop 2 := by
  rcases p with _ | ⟨x, _ | ⟨y, t⟩⟩ <;> rfl

theorem readUInt16BE_ok (b : Buf) (off : Nat) (h : off + 2 ≤ b.length) :
    readUInt16BE b off = .ok (256 * b.getD off 0 + b.getD (off + 1) 0) := by
  unfold readUInt16BE
  rw [if_pos h]

theorem readUInt8_ok (b : Buf) (off : Nat) (h : off + 1 ≤ b.length) :
    readUInt8 b off = .ok (b.getD off 0) := by
  unfold readUInt8
  rw [if_pos h]

theorem toStringHex_one (b : Buf) (off : Nat) (h : off < b.length) :
    toStringHex b off (off + 1) = byteToHex (b.getD off 0) := by
  unfold toStringHex
  rw [List.drop_eq_getElem_cons h, Nat.add_sub_cancel_left,
    List.getD_eq_getElem b 0 h]
  rfl

/-- Full characterization of `_parseRobotData` on buffers of length ≥ 7:
the decode succeeds and each field is read from its fixed offset. -/
theorem parse_spec (b : Buf) (h : 7 ≤ b.length) :
    parseRobotData b =
      .ok { pong := 256 * b.getD 0 0 + b.getD 1 0
            mode := b.getD 3 0
            batteryVolts := byteToHex (b.getD 5 0) ++ "." ++
              byteToHex (b.getD 6 0) } := by
  have h5 : toStringHex b 5 6 = byteToHex (b.getD 5 0) :=
    toStringHex_one b 5 (by omega)
  have h6 : toStringHex b 6 7 = byteToHex (b.getD 6 0) :=
    toStringHex_one b 6 (by omega)
  unfold parseRobotData
  rw [readUInt16BE_ok b 0 (by omega), readUInt8_ok b 3 (by omega)]
  simp only [h5, h6]
  rfl

theorem except_bind_ok {α β ε : Type} (a : α) (f : α → Except ε β) :
    (Except.ok a : Except ε α) >>= f = f a := rfl

theorem sendN_succ (s : DSState) (n : Nat) :
    sendN s (n + 1) =
      match sendN s n with
      | .error e => .error e
      | .ok (pkts, s1) =>
        match send s1 with
        | .error e => .error e
        | .ok (p, s2) => .ok (pkts ++ [p], s2) := rfl

theorem runTicks_succ (s : DSState) (n : Nat) :
    runTicks s (n + 1) =
      match runTicks s n with
      | .error e => .error e
      | .ok (s1, evs1) =>
        match heartbeatTick s1 with
        | .error e => .error e
        | .ok (s2, evs2) => .ok (s2, evs1 ++ evs2) := rfl

theorem send_ok (s : DSState) (hp : s.dsData.ping ≤ 65535) :
    send s = .ok (writePing s.dsData.ping s.packet,
      { s with
          packet := writePing s.dsData.ping s.packet
          dsData := { s.dsData with ping := s.dsData.ping + 1 } }) := by
  unfold send writeUInt16BE0
  rw [if_pos hp]
  rfl

theorem send_err (s : DSState) (hp : 65535 < s.dsData.ping) :
    send s = .error .valueOutOfBounds := by
  unfold send writeUInt16BE0
  rw [if_neg (by omega)]
  rfl

theorem discoveryTick_ok (s : DSState) (hp : s.dsData.ping ≤ 65535) :
    discoveryTick s = .ok
      ({ s with
          packet := writePing s.dsData.ping s.packet
          dsData := { s.dsData with ping := s.dsData.ping + 1 } }, []) := by
  unfold discoveryTick
  rw [send_ok s hp]
  rfl

theorem discoveryTick_err (s : DSState) (hp : 65535 < s.dsData.ping) :
    discoveryTick s = .error .valueOutOfBounds := by
  unfold discoveryTick
  rw [send_err s hp]
  rfl

theorem heartbeatTick_quiet (s : DSState) (hp : s.dsData.ping ≤ 65535)
    (hm : s.missedPackets < 10) :
    heartbeatTick s = .ok
      ({ s with
          packet := writePing s.dsData.ping s.packet
          dsData := { s.dsData with ping := s.dsData.ping + 1 }
          missedPackets := s.missedPackets + 1 }, []) := by
  unfold heartbeatTick
  rw [send_ok s hp]
  rw [except_bind_ok]
  show (Except.ok (disconnectCheck _) : Except BufError _) = _
  unfold disconnectCheck
  rw [if_neg (show ¬(s.missedPackets + 1 > 10) by omega)]

theorem heartbeatTick_disc (s : DSState) (hp : s.dsData.ping ≤ 65535)
    (hm : 10 ≤ s.missedPackets) :
    heartbeatTick s = .ok
      ({ s with
          packet := writePing s.dsData.ping s.packet
          dsData := { s.dsData with ping := s.dsData.ping + 1 }
          missedPackets := s.missedPackets + 1
          sendTimer := false
          findTimer := true
          connected := false },
       ["disconnect"]) := by
  unfold heartbeatTick
  rw [send_ok s hp]
  rw [except_bind_ok]
  show (Except.ok (disconnectCheck _) : Except BufError _) = _
  unfold disconnectCheck
  rw [if_pos (show s.missedPackets + 1 > 10 by omega)]
  rfl

theorem heartbeatTick_err (s : DSState) (hp : 65535 < s.dsData.ping) :
    heartbeatTick s = .error .valueOutOfBounds := by
  unfold heartbeatTick
  rw [send_err s hp]
  rfl

theorem onMessage_searching (t : DSState) (m : Buf) (hc : t.connected = false) :
    onMessage t m =
      ({ t with
          findTimer := false
          sendTimer := true
          connected := true
          missedPackets := 0 }, ["connect"], parseRobotData m) := by
  simp [onMessage, connect, hc]

theorem onMessage_connected (t : DSState) (m : Buf) (hc : t.connected = true) :
    onMessage t m = ({ t with missedPackets := 0 }, [], parseRobotData m) := by
  simp [onMessage, hc]

theorem parse_ok_of_len4 (m : Buf) (h : 4 ≤ m.length) :
    ∃ r, parseRobotData m = .ok r := by
  unfold parseRobotData
  rw [readUInt16BE_ok m 0 (by omega), readUInt8_ok m 3 (by omega)]
  exact ⟨_, rfl⟩

/-- Characterization of `n` consecutive successful sends: each transmitted
packet is the stored packet with the current counter written into bytes
0-1, the counter advances by one per send, and nothing else of the engine
state changes (the stored packet differs only in its ping bytes). -/
theorem sendN_ok (n : Nat) (s : DSState)
    (h : s.dsData.ping + n ≤ 65536) :
    ∃ pkts s', sendN s n = .ok (pkts, s') ∧
      pkts = (List.range n).map
        (fun i => writePing (s.dsData.ping + i) s.packet) ∧
      s'.dsData.ping = s.dsData.ping + n ∧
      (∀ v, writePing v s'.packet = writePing v s.packet) ∧
      s'.packet.drop 2 = s.packet.drop 2 ∧
      s'.dsData.mode = s.dsData.mode ∧
      s'.dsData.reboot_action = s.dsData.reboot_action ∧
      s'.connected = s.connected ∧ s'.sendTimer = s.sendTimer ∧
      s'.findTimer = s.findTimer ∧ s'.missedPackets = s.missedPackets := by
  induction n with
  | zero =>
    exact ⟨[], s, rfl, by simp, by simp, fun v => rfl, rfl, rfl, rfl, rfl,
      rfl, rfl, rfl⟩
  | succ n ih =>
    obtain ⟨pkts, s1, hrun, hpkts, hping, hwp, hdrop, hmode, hreb, hconn,
      hst, hft, hmp⟩ := ih (by omega)
    have hp1 : s1.dsData.ping ≤ 65535 := by omega
    have hsend := send_ok s1 hp1
    refine ⟨pkts ++ [writePing s1.dsData.ping s1.packet],
      { s1 with
          packet := writePing s1.dsData.ping s1.packet
          dsData := { s1.dsData with ping := s1.dsData.ping + 1 } },
      ?_, ?_, ?_, ?_, ?_, ?_, ?_, ?_, ?_, ?_, ?_⟩
    · simp only [sendN, hrun, hsend]
    · rw [hpkts, List.range_succ, List.map_append]
      simp only [List.map_cons, List.map_nil]
      congr 1
      rw [hping, hwp]
    · show s1.dsData.ping + 1 = s.dsData.ping + (n + 1)
      omega
    · intro v
      show writePing v (writePing s1.dsData.ping s1.packet) =
        writePing v s.packet
      rw [writePing_writePing]
      exact hwp v
    · show (writePing s1.dsData.ping s1.packet).drop 2 = s.packet.drop 2
      rw [drop_two_writePing]
      exact hdrop
    · exact hmode
    · exact hreb
    · exact hconn
    · exact hst
    · exact hft
    · exact hmp

/-- Characterization of `k` heartbeat ticks that stay below the
missed-packet threshold: no event is emitted, `missedPackets` advances by
one per tick, and the connection state and timers are untouched. -/
theorem runTicks_quiet (k : Nat) (s : DSState)
    (hk : s.missedPackets + k ≤ 10) (hp : s.dsData.ping + k ≤ 65536) :
    ∃ s', runTicks s k = .ok (s', []) ∧
      s'.missedPackets = s.missedPackets + k ∧
      s'.dsData.ping = s.dsData.ping + k ∧
      s'.connected = s.connected ∧ s'.sendTimer = s.sendTimer ∧
      s'.findTimer = s.findTimer ∧ s'.serverOpen = s.serverOpen := by
  induction k with
  | zero => exact ⟨s, rfl, by omega, by omega, rfl, rfl, rfl, rfl⟩
  | succ k ih =>
    obtain ⟨s1, hrun, hmp, hping, hconn, hst, hft, hso⟩ :=
      ih (by omega) (by omega)
    have htick := heartbeatTick_quiet s1 (by omega) (by omega)
    refine ⟨{ s1 with
        packet := writePing s1.dsData.ping s1.packet
        dsData := { s1.dsData with ping := s1.dsData.ping + 1 }
        missedPackets := s1.missedPackets + 1 },
      ?_, ?_, ?_, ?_, ?_, ?_, ?_⟩
    · simp only [runTicks, hrun, htick, List.nil_append]
    · show s1.missedPackets + 1 = s.missedPackets + (k + 1)
      omega
    · show s1.dsData.ping + 1 = s.dsData.ping + (k + 1)
      omega
    · exact hconn
    · exact hst
    · exact hft
    · exact hso

/-- Characterization of consecutive datagram arrivals while already
`Connected`: no event is emitted and the timers are untouched (the
handler only resets `missedPackets` and pushes the decoded record). -/
theorem runArrivals_connected (msgs : List Buf) :
    ∀ s : DSState, s.connected = true → (∀ m ∈ msgs, 4 ≤ m.length) →
    ∃ s', runArrivals s msgs = .ok (s', []) ∧ s'.connected = true ∧
      s'.sendTimer = s.sendTimer ∧ s'.findTimer = s.findTimer := by
  induction msgs with
  | nil => exact fun s hc _ => ⟨s, rfl, hc, rfl, rfl⟩
  | cons m ms ih =>
    intro s hc hlen
    obtain ⟨r, hr⟩ := parse_ok_of_len4 m (hlen m (by simp))
    have hmsg := onMessage_connected s m hc
    obtain ⟨s', hrun, hc', hst, hft⟩ :=
      ih { s with missedPackets := 0 } hc
        (fun x hx => hlen x (by simp [hx]))
    exact ⟨s', by simp only [runArrivals, hmsg, hr, hrun, List.nil_append],
      hc', hst, hft⟩

/-- C8: encoding the initial `ControlPacketState` of the constructor
(`ping = 1`, `mode = Disabled`, `rebootAction = Idle`, reserved bytes at
their fixed values) yields exactly the 6-byte buffer
`00 01 01 00 10 00`, and the mode/reboot enumerations carry the listed
byte values (`Disabled = 0x00`, `Test = 0x05`, `Autonomous = 0x06`,
`TeleOperated = 0x04`, `EmergencyStop = 0x80`; `Idle = 0x10`,
`RobotCode = 0x14`, `DeviceReboot = 0x18`, the last named `roboRIO` in the
source table). -/
theorem initial_packet_encoding :
    buildPacket initDSData = [0x00, 0x01, 0x01, 0x00, 0x10, 0x00] ∧
    constructedState.packet = [0x00, 0x01, 0x01, 0x00, 0x10, 0x00] ∧
    initDSData.ping = 1 ∧
    initDSData.mode = (MODES.lookup "Disabled").getD 0 ∧
    initDSData.reboot_action = (REBOOT_ACTION.lookup "Idle").getD 0 ∧
    MODES.lookup "Disabled" = some 0x00 ∧
    MODES.lookup "Test" = some 0x05 ∧
    MODES.lookup "Autonomous" = some 0x06 ∧
    MODES.lookup "TeleOperated" = some 0x04 ∧
    MODES.lookup "Emergency Stop" = some 0x80 ∧
    REBOOT_ACTION.lookup "Idle" = some 0x10 ∧
    REBOOT_ACTION.lookup "Robot Code" = some 0x14 ∧
    REBOOT_ACTION.lookup "roboRIO" = some 0x18 := by
  decide

/-- C2 counterexample: the byte list of the claim places `0x06` at offset 4,
but `_parseRobotData` reads `mode` at offset 3; with the wildcard bytes
(offsets 2 and 3) instantiated to `0x00`, the buffer
`[0x00, 0x2A, 0x00, 0x00, 0x06, 0x0C, 0x05]` decodes to `mode = 0`, not
the record `{pong = 42, mode = 6, batteryVolts = "0c.05"}` the claim
demands for every wildcard instantiation. -/
theorem decode_example_counterexample :
    parseRobotData [0x00, 0x2A, 0x00, 0x00, 0x06, 0x0C, 0x05] =
      .ok { pong := 42, mode := 0, batteryVolts := "0c.05" } ∧
    parseRobotData [0x00, 0x2A, 0x00, 0x00, 0x06, 0x0C, 0x05] ≠
      .ok { pong := 42, mode := 6, batteryVolts := "0c.05" } := by
  exact ⟨rfl, by decide⟩

/-- C2 (amended): for every buffer of length at least 7 whose bytes at
offsets 0, 1, 3, 5, 6 are `0x00, 0x2A, 0x06, 0x0C, 0x05` (offsets 2 and 4
are the wildcards), decoding yields
`{pong = 42, mode = 6, batteryVolts = "0c.05"}`: `pong` is the unsigned
16-bit big-endian value at offset 0, `mode` the unsigned 8-bit value at
offset 3, and `batteryVolts` the bytes at offsets 5 and 6 each rendered as
two lowercase hex digits joined by a literal `.`. -/
theorem decode_example_amended (b : Buf) (hlen : 7 ≤ b.length)
    (h0 : b.getD 0 0 = 0x00) (h1 : b.getD 1 0 = 0x2A)
    (h3 : b.getD 3 0 = 0x06) (h5 : b.getD 5 0 = 0x0C)
    (h6 : b.getD 6 0 = 0x05) :
    parseRobotData b = .ok { pong := 42, mode := 6, batteryVolts := "0c.05" } := by
  rw [parse_spec b hlen, h0, h1, h3, h5, h6]
  rfl

/-- Witness for the amended C2 at a concrete buffer with the fixed bytes
at offsets 0, 1, 3, 5, 6 and zero wildcards. -/
theorem decode_example_amended_witness :
    parseRobotData [0x00, 0x2A, 0x00, 0x06, 0x00, 0x0C, 0x05] =
      .ok { pong := 42, mode := 6, batteryVolts := "0c.05" } :=
  decode_example_amended [0x00, 0x2A, 0x00, 0x06, 0x00, 0x0C, 0x05]
    (by decide) (by decide) (by decide) (by decide) (by decide) (by decide)

/-- C10: decoding is deterministic and depends only on the bytes at
offsets 0, 1, 3, 5 and 6: two buffers of length at least 7 that agree at
those offsets decode to identical telemetry records, whatever the bytes at
offsets 2 and 4 and past offset 6. -/
theorem decode_depends_only_on_used_offsets (b1 b2 : Buf)
    (hl1 : 7 ≤ b1.length) (hl2 : 7 ≤ b2.length)
    (e0 : b1.getD 0 0 = b2.getD 0 0) (e1 : b1.getD 1 0 = b2.getD 1 0)
    (e3 : b1.getD 3 0 = b2.getD 3 0) (e5 : b1.getD 5 0 = b2.getD 5 0)
    (e6 : b1.getD 6 0 = b2.getD 6 0) :
    parseRobotData b1 = parseRobotData b2 := by
  rw [parse_spec b1 hl1, parse_spec b2 hl2, e0, e1, e3, e5, e6]

/-- Witness for C10 at two concrete buffers differing at offsets 2, 4 and
in the bytes past offset 6. -/
theorem decode_depends_only_on_used_offsets_witness :
    parseRobotData [0, 42, 0, 6, 0, 12, 5] =
      parseRobotData [0, 42, 9, 6, 7, 12, 5, 99] :=
  decode_depends_only_on_used_offsets
    [0, 42, 0, 6, 0, 12, 5] [0, 42, 9, 6, 7, 12, 5, 99]
    (by decide) (by decide) (by decide) (by decide) (by decide) (by decide)
    (by decide)

/-- C1 (what the code does at short datagrams): `_parseRobotData` has no
minimum-length check and no `MalformedPacket` error. A buffer shorter than
4 bytes makes a `Buffer` read throw a range error, which escapes the
`message` handler; buffers of length 4, 5 or 6 decode without any failure
(with a truncated `batteryVolts`); and the handler resets `missedPackets`
to 0 and performs the connect transition before parsing, for malformed
datagrams included. -/
theorem short_datagram_behavior :
    parseRobotData [0x00, 0x00, 0x00] = .error .indexOutOfRange ∧
    parseRobotData [0x00, 0x2A, 0x00, 0x06] =
      .ok { pong := 42, mode := 6, batteryVolts := "." } ∧
    parseRobotData [0x00, 0x2A, 0x00, 0x06, 0x09, 0x0C] =
      .ok { pong := 42, mode := 6, batteryVolts := "0c." } ∧
    onMessage (connectedState 5) [0x00, 0x00, 0x00] =
      (connectedState 0, [], .error .indexOutOfRange) ∧
    (onMessage startedState [0x00, 0x00, 0x00]).1.connected = true ∧
    (onMessage startedState [0x00, 0x00, 0x00]).2.1 = ["connect"] := by
  decide

/-- C3 (code behavior at the counter boundary): the send path increments
the JS `ping` field without ever wrapping, and the checked
`writeUInt16BE` throws once the counter exceeds 65535: from the started
engine, the first 65535 sends succeed and leave the counter at 65536, and
the 65536th send fails with a value-out-of-bounds error instead of
transmitting a wrapped counter of 0. -/
theorem ping_overflow_no_wrap :
    (∀ s, 65535 < s.dsData.ping → send s = .error .valueOutOfBounds) ∧
    (∃ pkts s', sendN startedState 65535 = .ok (pkts, s') ∧
      s'.dsData.ping = 65536) ∧
    sendN startedState 65536 = .error .valueOutOfBounds := by
  obtain ⟨pkts, s', hrun, _, hping, _⟩ :=
    sendN_ok 65535 startedState (by show 1 + 65535 ≤ 65536; omega)
  have h65536 : s'.dsData.ping = 65536 := by rw [hping]; rfl
  refine ⟨fun s h => send_err s h, ⟨pkts, s', hrun, h65536⟩, ?_⟩
  rw [show (65536 : Nat) = 65535 + 1 from rfl, sendN_succ, hrun]
  simp only [send_err s' (by omega)]

/-- Witness for the universally quantified part of C3 at a concrete state whose
counter has just left the 16-bit range. -/
theorem ping_overflow_no_wrap_witness :
    send overflowState = .error .valueOutOfBounds :=
  ping_overflow_no_wrap.1 overflowState (by decide)

/-- C4 (code behavior of `stop()`): the prototype defines `_disconnect`
but no `disconnect`, so `stop()` on a connected engine throws a
`TypeError` from `this.disconnect()` before reaching `server.close()`
(no timer cancelled, socket not closed); on a searching engine `stop()`
closes the receive socket but leaves the whole state — the active
discovery timer included — untouched. -/
theorem stop_leaves_timer_or_throws :
    (∀ s, s.connected = true →
      stop s = .error (.typeErrorNotAFunction "disconnect")) ∧
    (∀ s, s.connected = false → stop s = .ok { s with serverOpen := false }) ∧
    "disconnect" ∉ prototypeMethods ∧
    "_disconnect" ∈ prototypeMethods := by
  refine ⟨?_, ?_, by decide, by decide⟩
  · intro s hc
    unfold stop
    rw [if_pos hc, if_neg (show ("disconnect" ∈ prototypeMethods) → False
      by decide)]
  · intro s hc
    unfold stop
    rw [if_neg (show ¬(s.connected = true) by simp [hc])]

/-- Witness for C4 at the two concrete states: a connected engine (stop
throws) and the freshly started searching engine (stop closes the socket
but the discovery timer stays scheduled). -/
theorem stop_leaves_timer_or_throws_witness :
    stop (connectedState 0) = .error (.typeErrorNotAFunction "disconnect") ∧
    stop startedState = .ok { startedState with serverOpen := false } ∧
    startedState.findTimer = true :=
  ⟨stop_leaves_timer_or_throws.1 (connectedState 0) rfl,
   stop_leaves_timer_or_throws.2.1 startedState rfl, rfl⟩

/-- C5: from `Connected` with `missedPackets = 0`, a run of 11 consecutive
heartbeat ticks with no datagram arrival emits no event during the first
10 ticks and exactly one `disconnect` event, at the 11th tick, when
`missedPackets` reaches 11 and exceeds the fixed threshold of 10 (the
side condition on `ping` keeps the checked counter write in range, cf.
C3). -/
theorem heartbeat_disconnects_at_eleventh_tick (s : DSState)
    (hc : s.connected = true) (hst : s.sendTimer = true)
    (hft : s.findTimer = false) (hmp : s.missedPackets = 0)
    (hp : s.dsData.ping + 10 ≤ 65535) :
    (∀ k, k ≤ 10 → ∃ sk, runTicks s k = .ok (sk, []) ∧
      sk.connected = true) ∧
    (∃ s', runTicks s 11 = .ok (s', ["disconnect"]) ∧
      s'.connected = false ∧ s'.sendTimer = false ∧ s'.findTimer = true ∧
      s'.missedPackets = 11) := by
  constructor
  · intro k hk
    obtain ⟨sk, hrun, _, _, hconnk, _, _, _⟩ :=
      runTicks_quiet k s (by omega) (by omega)
    exact ⟨sk, hrun, by rw [hconnk, hc]⟩
  · obtain ⟨s10, hrun, hmp10, hping10, _, _, _, _⟩ :=
      runTicks_quiet 10 s (by omega) (by omega)
    have htick := heartbeatTick_disc s10 (by omega) (by omega)
    refine ⟨{ s10 with
        packet := writePing s10.dsData.ping s10.packet
        dsData := { s10.dsData with ping := s10.dsData.ping + 1 }
        missedPackets := s10.missedPackets + 1
        sendTimer := false
        findTimer := true
        connected := false }, ?_, rfl, rfl, rfl, ?_⟩
    · rw [show (11 : Nat) = 10 + 1 from rfl, runTicks_succ, hrun]
      simp only [htick, List.nil_append]
    · show s10.missedPackets + 1 = 11
      omega

/-- Witness for C5 at the concrete just-connected engine state. -/
theorem heartbeat_disconnects_at_eleventh_tick_witness :
    (∀ k, k ≤ 10 → ∃ sk, runTicks (connectedState 0) k = .ok (sk, []) ∧
      sk.connected = true) ∧
    (∃ s', runTicks (connectedState 0) 11 = .ok (s', ["disconnect"]) ∧
      s'.connected = false ∧ s'.sendTimer = false ∧ s'.findTimer = true ∧
      s'.missedPackets = 11) :=
  heartbeat_disconnects_at_eleventh_tick (connectedState 0)
    rfl rfl rfl rfl (by decide)

/-- C6: for any nonempty sequence of datagram arrivals starting while
`Searching`, exactly one `connect` event fires across the whole run and it
fires on the first arrival; inside `_connect` the discovery interval is
cleared strictly before the heartbeat interval is started (the primitive
steps of the body, in source order, fold to the same state and events); and
a datagram received while already `Connected` never re-emits `connect`. -/
theorem arrivals_connect_once (s : DSState) (msgs : List Buf)
    (hc : s.connected = false) (hft : s.findTimer = true)
    (hst : s.sendTimer = false) (hne : msgs ≠ [])
    (hlen : ∀ m ∈ msgs, 4 ≤ m.length) :
    (∃ s', runArrivals s msgs = .ok (s', ["connect"]) ∧
      s'.connected = true ∧ s'.sendTimer = true ∧ s'.findTimer = false) ∧
    (∀ m, (onMessage s m).2.1 = ["connect"]) ∧
    (∀ t m, t.connected = true → (onMessage t m).2.1 = []) ∧
    (∀ t, connect t = connectBody.foldl applyConnectStep (t, [])) ∧
    connectBody.indexOf ConnectStep.clearFindInterval <
      connectBody.indexOf ConnectStep.startSendInterval := by
  obtain ⟨m, ms, rfl⟩ := List.exists_cons_of_ne_nil hne
  refine ⟨?_, ?_, ?_, fun t => rfl, by decide⟩
  · obtain ⟨r, hr⟩ := parse_ok_of_len4 m (hlen m (by simp))
    have hmsg := onMessage_searching s m hc
    obtain ⟨s', hrun, hc', hst', hft'⟩ :=
      runArrivals_connected ms
        { s with findTimer := false, sendTimer := true, connected := true, missedPackets := 0 }
        rfl (fun x hx => hlen x (by simp [hx]))
    exact ⟨s',
      by simp only [runArrivals, hmsg, hr, hrun, List.append_nil],
      hc', hst', hft'⟩
  · intro m'
    rw [onMessage_searching s m' hc]
  · intro t m' htc
    rw [onMessage_connected t m' htc]

/-- Witness for C6 at the freshly started engine and two concrete
well-formed datagrams. -/
theorem arrivals_connect_once_witness :
    (∃ s', runArrivals startedState [[0, 42, 0, 6, 0, 12, 5], [0, 1, 2, 3]] =
        .ok (s', ["connect"]) ∧
      s'.connected = true ∧ s'.sendTimer = true ∧ s'.findTimer = false) ∧
    (∀ m, (onMessage startedState m).2.1 = ["connect"]) ∧
    (∀ t m, t.connected = true → (onMessage t m).2.1 = []) ∧
    (∀ t, connect t = connectBody.foldl applyConnectStep (t, [])) ∧
    connectBody.indexOf ConnectStep.clearFindInterval <
      connectBody.indexOf ConnectStep.startSendInterval :=
  arrivals_connect_once startedState [[0, 42, 0, 6, 0, 12, 5], [0, 1, 2, 3]]
    rfl rfl rfl (by decide) (by decide)

/-- C7: in every state of the running engine reachable from `start()` via
datagram arrivals, discovery-interval firings and heartbeat-interval
firings, exactly one of the two intervals is scheduled and it matches the
connection state: the discovery interval exactly when `Searching`
(`connected = false`), the heartbeat interval exactly when `Connected`. -/
theorem reachable_timer_invariant (s : DSState) (h : Reachable s) :
    timerInv s := by
  induction h with
  | start => exact Or.inr ⟨rfl, rfl, rfl⟩
  | message t t' msg evs r _ hmsg ih =>
    cases hc : t.connected with
    | false =>
      rw [onMessage_searching t msg hc] at hmsg
      simp only [Prod.mk.injEq] at hmsg
      obtain ⟨h1, -, -⟩ := hmsg
      subst h1
      exact Or.inl ⟨rfl, rfl, rfl⟩
    | true =>
      rw [onMessage_connected t msg hc] at hmsg
      simp only [Prod.mk.injEq] at hmsg
      obtain ⟨h1, -, -⟩ := hmsg
      subst h1
      exact ih
  | discovery t t' evs _ hft hrun ih =>
    by_cases hp : t.dsData.ping ≤ 65535
    · rw [discoveryTick_ok t hp] at hrun
      simp only [Except.ok.injEq, Prod.mk.injEq] at hrun
      obtain ⟨h1, -⟩ := hrun
      subst h1
      exact ih
    · rw [discoveryTick_err t (by omega)] at hrun
      simp at hrun
  | heartbeat t t' evs _ hst hrun ih =>
    by_cases hp : t.dsData.ping ≤ 65535
    · by_cases hm : t.missedPackets < 10
      · rw [heartbeatTick_quiet t hp hm] at hrun
        simp only [Except.ok.injEq, Prod.mk.injEq] at hrun
        obtain ⟨h1, -⟩ := hrun
        subst h1
        exact ih
      · rw [heartbeatTick_disc t hp (by omega)] at hrun
        simp only [Except.ok.injEq, Prod.mk.injEq] at hrun
        obtain ⟨h1, -⟩ := hrun
        subst h1
        exact Or.inr ⟨rfl, rfl, rfl⟩
    · rw [heartbeatTick_err t (by omega)] at hrun
      simp at hrun

/-- Witness for C7 at the initial reachable state. -/
theorem reachable_timer_invariant_witness : timerInv startedState :=
  reachable_timer_invariant startedState Reachable.start

/-- C9: the send path rewrites only the ping bytes (offsets 0-1) of the
outbound packet — any successful `_send` transmits a packet whose bytes
from offset 2 on equal those of the stored packet, and leaves the stored bytes
from offset 2 on unchanged together with the `mode` and `reboot_action`
fields; consequently every packet transmitted by consecutive sends from
the started engine carries the constructor bytes `0x01`, `mode`,
`reboot_action`, `0x00` at offsets 2-5. -/
theorem send_rewrites_only_ping_bytes (n : Nat) (hn : n ≤ 65535) :
    (∀ s p s', send s = .ok (p, s') →
      p.drop 2 = s.packet.drop 2 ∧ s'.packet.drop 2 = s.packet.drop 2 ∧
      s'.dsData.mode = s.dsData.mode ∧
      s'.dsData.reboot_action = s.dsData.reboot_action) ∧
    (∃ pkts s', sendN startedState n = .ok (pkts, s') ∧
      ∀ p ∈ pkts, p.drop 2 =
        [0x01, initDSData.mode, initDSData.reboot_action, 0x00]) := by
  constructor
  · intro s p s' h
    by_cases hp : s.dsData.ping ≤ 65535
    · rw [send_ok s hp] at h
      simp only [Except.ok.injEq, Prod.mk.injEq] at h
      obtain ⟨h1, h2⟩ := h
      subst h1
      subst h2
      exact ⟨drop_two_writePing _ _, drop_two_writePing _ _, rfl, rfl⟩
    · rw [send_err s (by omega)] at h
      simp at h
  · obtain ⟨pkts, s', hrun, hpkts, _, _, _, _, _, _, _, _, _⟩ :=
      sendN_ok n startedState (by show 1 + n ≤ 65536; omega)
    refine ⟨pkts, s', hrun, ?_⟩
    rw [hpkts]
    intro p hp
    simp only [List.mem_map] at hp
    obtain ⟨i, -, rfl⟩ := hp
    rw [drop_two_writePing]
    rfl

/-- Witness for C9 at three consecutive sends from the started engine. -/
theorem send_rewrites_only_ping_bytes_witness :
    (∀ s p s', send s = .ok (p, s') →
      p.drop 2 = s.packet.drop 2 ∧ s'.packet.drop 2 = s.packet.drop 2 ∧
      s'.dsData.mode = s.dsData.mode ∧
      s'.dsData.reboot_action = s.dsData.reboot_action) ∧
    (∃ pkts s', sendN startedState 3 = .ok (pkts, s') ∧
      ∀ p ∈ pkts, p.drop 2 =
        [0x01, initDSData.mode, initDSData.reboot_action, 0x00]) :=
  send_rewrites_only_ping_bytes 3 (by decide)

end DriverStation
